import Mathlib

/-!
Shallow embedding of the consensus-metadata store (`src/kudu/consensus/consensus_meta.cc`)
and the rowset directory (`src/tablet/rowset_tree.cc`) of the Kekdeng/kudu repository,
together with proofs of the testable properties stated in the specification.

Machine integers are modelled as `Nat` (for the packed 64-bit cache word, with explicit
`% 2^64` where C++ unsigned arithmetic can wrap) and `Int` (for `int64_t` terms).
Fatal paths (`LOG(FATAL)`, `CHECK` failures) are modelled as `Option`/`Except` failures.
`DCHECK` preconditions (compiled out in release builds) appear as theorem hypotheses,
while the definitions follow the release-build semantics of the code.
-/

namespace Kudu

/-! ## Packed role/term cache (consensus_meta.cc, anonymous namespace) -/

/-- `constexpr size_t kPackedRoleBits = 3;` -/
def kPackedRoleBits : Nat := 3

/-- `constexpr size_t kPackedTermBits = 8 * sizeof(uint64_t) - kPackedRoleBits;` -/
def kPackedTermBits : Nat := 8 * 8 - kPackedRoleBits

/-- `constexpr uint64_t kUnknownRolePacked = (1ULL << kPackedRoleBits) - 1;` -/
def kUnknownRolePacked : Nat := (1 <<< kPackedRoleBits) - 1

/-- `constexpr uint64_t kRoleMask = kUnknownRolePacked << kPackedTermBits;` -/
def kRoleMask : Nat := kUnknownRolePacked <<< kPackedTermBits

/-- `constexpr uint64_t kTermMask = ~kRoleMask;` (bitwise complement within 64 bits). -/
def kTermMask : Nat := kRoleMask ^^^ (2 ^ 64 - 1)

/-- The numeric value of `RaftPeerPB::UNKNOWN_ROLE`: the code comments in
`PackRoleAndTerm` document it as "the constant 999 defined in the proto file". -/
def UNKNOWN_ROLE : Nat := 999

/-- The value of a C++ `int64_t` reinterpreted as `uint64_t` (two's complement),
as happens in `term & kRoleMask` and in `(r << kPackedTermBits) | term`. -/
def toUInt64Nat (t : Int) : Nat := (t % (2 ^ 64 : Int)).toNat

/-- `PackRoleAndTerm` from consensus_meta.cc: if the term has any bit of `kRoleMask`
set, it is replaced by the special value `kTermMask`; `UNKNOWN_ROLE` (999) is packed
as `kUnknownRolePacked`, every other role as its own numeric value. -/
def PackRoleAndTerm (role : Nat) (term : Int) : Nat :=
  (((if role = UNKNOWN_ROLE then kUnknownRolePacked else role) <<< kPackedTermBits) |||
    (if toUInt64Nat term &&& kRoleMask ≠ 0 then kTermMask else toUInt64Nat term)) % 2 ^ 64

/-- `UnpackRole` from consensus_meta.cc. -/
def UnpackRole (role_and_term_packed : Nat) : Nat :=
  if role_and_term_packed >>> kPackedTermBits = kUnknownRolePacked then UNKNOWN_ROLE
  else role_and_term_packed >>> kPackedTermBits

/-- `UnpackTerm` from consensus_meta.cc; the `LOG(FATAL)` branch on the sentinel
is modelled as `none`. -/
def UnpackTerm (role_and_term_packed : Nat) : Option Int :=
  if role_and_term_packed &&& kTermMask = kTermMask then none
  else some ((role_and_term_packed &&& kTermMask : Nat) : Int)

/-! ## ConsensusMetadata state (consensus_meta.h/.cc) -/

/-- `kMinimumTerm` (opid_util.h, not under src/). Modelled from the spec:
"minimum value is the implementation's `MinimumTerm` (typically 0)". -/
def kMinimumTerm : Int := 0

/-- A Raft configuration (`RaftConfigPB`). Its internals are opaque to
consensus_meta.cc; only identity of whole configurations matters here. -/
structure RaftConfigPB where
  opid_index : Int := 0
  peer_uuids : List String := []
deriving DecidableEq

/-- The durable protobuf state (`ConsensusMetadataPB`): optional fields are `Option`. -/
structure ConsensusMetadataPB where
  current_term : Option Int := none
  voted_for : Option String := none
  committed_config : Option RaftConfigPB := none
deriving DecidableEq

/-- `ConsensusStatePB` as consumed by `MergeCommittedConsensusStatePB`
(only `current_term` and `committed_config` are read there). -/
structure ConsensusStatePB where
  current_term : Int := 0
  leader_uuid : Option String := none
  committed_config : RaftConfigPB := {}
  pending_config : Option RaftConfigPB := none
deriving DecidableEq

/-- The in-memory `ConsensusMetadata` object. -/
structure ConsensusMetadata where
  tablet_id : String
  peer_uuid : String
  pb : ConsensusMetadataPB
  has_pending_config : Bool
  pending_config : RaftConfigPB
  leader_uuid : String
  active_role : Nat
  role_and_term_cache : Nat
  flush_count_for_tests : Nat
  on_disk_size : Nat
deriving DecidableEq

/-- `GetConsensusRole(peer_uuid, leader_uuid, active_config)` lives in quorum_util.cc,
an external collaborator (spec §6); the development is parameterized over it. -/
abbrev GetRoleFn := String → String → RaftConfigPB → Nat

namespace ConsensusMetadata

/-- `current_term()`: `DCHECK(pb_.has_current_term())`, then the protobuf accessor,
which in release builds returns the field or its default 0 when unset. -/
def current_term (cm : ConsensusMetadata) : Int := cm.pb.current_term.getD 0

/-- `has_voted_for()`. -/
def has_voted_for (cm : ConsensusMetadata) : Bool := cm.pb.voted_for.isSome

/-- `CommittedConfig()` / `GetConfig(COMMITTED_CONFIG)`: `DCHECK(pb_.has_committed_config())`,
then the protobuf accessor (default instance when unset, release semantics). -/
def CommittedConfig (cm : ConsensusMetadata) : RaftConfigPB :=
  cm.pb.committed_config.getD {}

/-- `GetConfig(ACTIVE_CONFIG)`: the pending config when one exists, else committed. -/
def ActiveConfig (cm : ConsensusMetadata) : RaftConfigPB :=
  if cm.has_pending_config then cm.pending_config else cm.CommittedConfig

/-- `UpdateRoleAndTermCache()`: repack the cache from the current role and
`pb_.has_current_term() ? current_term() : -1`. -/
def UpdateRoleAndTermCache (cm : ConsensusMetadata) : ConsensusMetadata :=
  { cm with role_and_term_cache :=
      PackRoleAndTerm cm.active_role (cm.pb.current_term.getD (-1)) }

/-- `UpdateActiveRole()`: re-derive the active role, then repack the cache. -/
def UpdateActiveRole (g : GetRoleFn) (cm : ConsensusMetadata) : ConsensusMetadata :=
  UpdateRoleAndTermCache
    { cm with active_role := g cm.peer_uuid cm.leader_uuid cm.ActiveConfig }

/-- `set_current_term(term)`: `DCHECK_GE(term, kMinimumTerm)` (hypothesis in theorems),
store the term, repack the cache. -/
def set_current_term (term : Int) (cm : ConsensusMetadata) : ConsensusMetadata :=
  UpdateRoleAndTermCache { cm with pb := { cm.pb with current_term := some term } }

/-- `set_voted_for(uuid)`: `DCHECK(!uuid.empty())` (hypothesis in theorems). -/
def set_voted_for (uuid : String) (cm : ConsensusMetadata) : ConsensusMetadata :=
  { cm with pb := { cm.pb with voted_for := some uuid } }

/-- `clear_voted_for()`. -/
def clear_voted_for (cm : ConsensusMetadata) : ConsensusMetadata :=
  { cm with pb := { cm.pb with voted_for := none } }

/-- `set_committed_config(config)`: store the config; re-derive the role only
when no pending config exists. -/
def set_committed_config (g : GetRoleFn) (config : RaftConfigPB)
    (cm : ConsensusMetadata) : ConsensusMetadata :=
  let cm' := { cm with pb := { cm.pb with committed_config := some config } }
  if cm'.has_pending_config then cm' else UpdateActiveRole g cm'

/-- `set_pending_config(config)`. -/
def set_pending_config (g : GetRoleFn) (config : RaftConfigPB)
    (cm : ConsensusMetadata) : ConsensusMetadata :=
  UpdateActiveRole g { cm with has_pending_config := true, pending_config := config }

/-- `clear_pending_config()`: drop the flag, `pending_config_.Clear()` (default
instance), re-derive. -/
def clear_pending_config (g : GetRoleFn) (cm : ConsensusMetadata) : ConsensusMetadata :=
  UpdateActiveRole g { cm with has_pending_config := false, pending_config := {} }

/-- `set_leader_uuid(uuid)`. -/
def set_leader_uuid (g : GetRoleFn) (uuid : String) (cm : ConsensusMetadata) :
    ConsensusMetadata :=
  UpdateActiveRole g { cm with leader_uuid := uuid }

/-- `MergeCommittedConsensusStatePB(cstate)`. -/
def MergeCommittedConsensusStatePB (g : GetRoleFn) (cstate : ConsensusStatePB)
    (cm : ConsensusMetadata) : ConsensusMetadata :=
  let cm1 := if cstate.current_term > cm.current_term then
               clear_voted_for (set_current_term cstate.current_term cm)
             else cm
  clear_pending_config g (set_committed_config g cstate.committed_config
    (set_leader_uuid g "" cm1))

/-- `GetRoleAndTerm()`: a single read of the cache word, then unpack both halves;
the term half is `none` on the fatal sentinel path. -/
def GetRoleAndTerm (cm : ConsensusMetadata) : Nat × Option Int :=
  let val := cm.role_and_term_cache
  (UnpackRole val, UnpackTerm val)

/-- The private constructor `ConsensusMetadata(fs_manager, tablet_id, peer_uuid)`:
empty protobuf, no pending config, `active_role_(RaftPeerPB::UNKNOWN_ROLE)`,
then `UpdateRoleAndTermCache()`. -/
def mk0 (tablet_id peer_uuid : String) : ConsensusMetadata :=
  UpdateRoleAndTermCache
    { tablet_id := tablet_id
      peer_uuid := peer_uuid
      pb := {}
      has_pending_config := false
      pending_config := {}
      leader_uuid := ""
      active_role := UNKNOWN_ROLE
      role_and_term_cache := 0
      flush_count_for_tests := 0
      on_disk_size := 0 }

end ConsensusMetadata

/-- The state-mutating operations named by the cache-coherence property. -/
inductive Mutator where
  | setCurrentTerm (term : Int)
  | setCommittedConfig (config : RaftConfigPB)
  | setPendingConfig (config : RaftConfigPB)
  | clearPendingConfig
  | setLeaderUuid (uuid : String)
  | merge (cstate : ConsensusStatePB)
deriving DecidableEq

/-- Run one mutator on a `ConsensusMetadata`. -/
def applyMutator (g : GetRoleFn) (cm : ConsensusMetadata) : Mutator → ConsensusMetadata
  | .setCurrentTerm t => cm.set_current_term t
  | .setCommittedConfig c => cm.set_committed_config g c
  | .setPendingConfig c => cm.set_pending_config g c
  | .clearPendingConfig => cm.clear_pending_config g
  | .setLeaderUuid u => cm.set_leader_uuid g u
  | .merge cs => cm.MergeCommittedConsensusStatePB g cs

/-- Run a sequence of mutators, left to right. -/
def applyMutators (g : GetRoleFn) (ms : List Mutator) (cm : ConsensusMetadata) :
    ConsensusMetadata :=
  ms.foldl (applyMutator g) cm

/-! ## Arithmetic facts about the packed representation -/

lemma kPackedTermBits_eq : kPackedTermBits = 61 := rfl

lemma kUnknownRolePacked_eq : kUnknownRolePacked = 7 := rfl

lemma kRoleMask_shift : kRoleMask = 7 <<< 61 := rfl

lemma kTermMask_eq : kTermMask = 2 ^ 61 - 1 := by decide

/-- Terms below `2^61` have no bit in common with the role mask. -/
lemma and_kRoleMask_eq_zero {t : Nat} (ht : t < 2 ^ 61) : t &&& kRoleMask = 0 := by
  apply Nat.eq_of_testBit_eq
  intro j
  simp only [Nat.testBit_and, Nat.zero_testBit, kRoleMask_shift, Nat.testBit_shiftLeft]
  by_cases hj : 61 ≤ j
  · have hf : t.testBit j = false :=
      Nat.testBit_lt_two_pow (lt_of_lt_of_le ht (Nat.pow_le_pow_right (by norm_num) hj))
    simp [hf]
  · simp [hj]

/-- Conversely, a 64-bit value with no role-mask bit set is below `2^61`. -/
lemma lt_of_and_kRoleMask_eq_zero {t : Nat} (h64 : t < 2 ^ 64)
    (h : t &&& kRoleMask = 0) : t < 2 ^ 61 := by
  apply Nat.lt_pow_two_of_testBit
  intro i hi
  by_cases h63 : i ≤ 63
  · have hbit := congrArg (fun x => Nat.testBit x i) h
    simp only [Nat.testBit_and, Nat.zero_testBit] at hbit
    have hm : kRoleMask.testBit i = true := by
      rw [kRoleMask_shift, Nat.testBit_shiftLeft]
      interval_cases i <;> decide
    simpa [hm] using hbit
  · exact Nat.testBit_lt_two_pow
      (lt_of_lt_of_le h64 (Nat.pow_le_pow_right (by norm_num) (by omega)))

/-- Masking a packed word with the term mask recovers the (small) term bits. -/
lemma or_and_kTermMask {r t : Nat} (ht : t < 2 ^ 61) :
    ((r <<< 61) ||| t) &&& kTermMask = t := by
  rw [kTermMask_eq, Nat.and_pow_two_sub_one_eq_mod]
  apply Nat.eq_of_testBit_eq
  intro j
  simp only [Nat.testBit_mod_two_pow, Nat.testBit_or, Nat.testBit_shiftLeft]
  by_cases hj : j < 61
  · simp [hj, Nat.not_le.mpr hj]
  · have hf : t.testBit j = false :=
      Nat.testBit_lt_two_pow (lt_of_lt_of_le ht (Nat.pow_le_pow_right (by norm_num) (by omega)))
    simp [hj, hf]

/-- Shifting a packed word right recovers the role bits. -/
lemma or_shiftRight61 {r t : Nat} (ht : t < 2 ^ 61) :
    ((r <<< 61) ||| t) >>> 61 = r := by
  apply Nat.eq_of_testBit_eq
  intro j
  simp only [Nat.testBit_shiftRight, Nat.testBit_or, Nat.testBit_shiftLeft]
  have htb : t.testBit (61 + j) = false :=
    Nat.testBit_lt_two_pow (lt_of_lt_of_le ht (Nat.pow_le_pow_right (by norm_num) (by omega)))
  have h61 : 61 ≤ 61 + j := by omega
  have harg : 61 + j - 61 = j := by omega
  simp [htb, h61, harg]

/-- A packed word with a 3-bit role fits in 64 bits. -/
lemma or_lt_two_pow_64 {r t : Nat} (hr : r < 8) (ht : t < 2 ^ 64) :
    (r <<< 61) ||| t < 2 ^ 64 := by
  apply Nat.or_lt_two_pow ?_ ht
  rw [Nat.shiftLeft_eq]
  calc r * 2 ^ 61 < 8 * 2 ^ 61 :=
        (Nat.mul_lt_mul_right (by norm_num : (0:Nat) < 2 ^ 61)).mpr hr
    _ = 2 ^ 64 := by norm_num

lemma UNKNOWN_ROLE_eq : UNKNOWN_ROLE = 999 := rfl

/-- The packed role of a valid role value fits in 3 bits. -/
lemma packedRole_lt_8 {role : Nat} (hrole : role < 7 ∨ role = UNKNOWN_ROLE) :
    (if role = UNKNOWN_ROLE then kUnknownRolePacked else role) < 8 := by
  rcases hrole with h | h
  · have hne : ¬role = UNKNOWN_ROLE := by rw [UNKNOWN_ROLE_eq]; omega
    rw [if_neg hne]; omega
  · rw [if_pos h]; decide

/-- `toUInt64Nat` of a non-negative in-range int64 is its `toNat`. -/
lemma toUInt64Nat_of_nonneg {term : Int} (h0 : 0 ≤ term) (h64 : term < 2 ^ 64) :
    toUInt64Nat term = term.toNat := by
  unfold toUInt64Nat
  rw [Int.emod_eq_of_lt h0 (by omega)]

/-- Evaluation of `PackRoleAndTerm` on an in-range term. -/
lemma pack_eq_of_small {role : Nat} {term : Int}
    (hr8 : (if role = UNKNOWN_ROLE then kUnknownRolePacked else role) < 8)
    (h0 : 0 ≤ term) (hlt : term.toNat < 2 ^ 61) :
    PackRoleAndTerm role term =
      ((if role = UNKNOWN_ROLE then kUnknownRolePacked else role) <<< kPackedTermBits)
        ||| term.toNat := by
  unfold PackRoleAndTerm
  rw [toUInt64Nat_of_nonneg h0 (by omega)]
  have hcond : ¬(term.toNat &&& kRoleMask ≠ 0) := by
    simp [and_kRoleMask_eq_zero hlt]
  rw [if_neg hcond, kPackedTermBits_eq]
  have hlt64 : term.toNat < 2 ^ 64 := by omega
  exact Nat.mod_eq_of_lt (or_lt_two_pow_64 hr8 hlt64)

/-- Core round-trip fact for the role half. -/
lemma UnpackRole_pack {role : Nat} {term : Int}
    (hrole : role < 7 ∨ role = UNKNOWN_ROLE)
    (h0 : 0 ≤ term) (h1 : term ≤ 2 ^ 61 - 2) :
    UnpackRole (PackRoleAndTerm role term) = role := by
  have htn : term.toNat < 2 ^ 61 := by omega
  rw [pack_eq_of_small (packedRole_lt_8 hrole) h0 htn]
  unfold UnpackRole
  rw [kPackedTermBits_eq, or_shiftRight61 htn]
  rcases hrole with h | h
  · have hne : ¬role = UNKNOWN_ROLE := by rw [UNKNOWN_ROLE_eq]; omega
    have hne7 : ¬role = kUnknownRolePacked := by rw [kUnknownRolePacked_eq]; omega
    rw [if_neg hne, if_neg hne7]
  · rw [if_pos h, if_pos rfl, h]

/-- Core round-trip fact for the term half. -/
lemma UnpackTerm_pack {role : Nat} {term : Int}
    (hrole : role < 7 ∨ role = UNKNOWN_ROLE)
    (h0 : 0 ≤ term) (h1 : term ≤ 2 ^ 61 - 2) :
    UnpackTerm (PackRoleAndTerm role term) = some term := by
  have htn : term.toNat < 2 ^ 61 := by omega
  rw [pack_eq_of_small (packedRole_lt_8 hrole) h0 htn]
  unfold UnpackTerm
  rw [kPackedTermBits_eq, or_and_kTermMask htn]
  have hne : ¬term.toNat = kTermMask := by rw [kTermMask_eq]; omega
  rw [if_neg hne]
  simp [Int.toNat_of_nonneg h0]

/-- The term field of a pack of any term at or above `2^61 - 1` is the sentinel. -/
lemma pack_term_sentinel {role : Nat} {term : Int}
    (hrole : role < 7 ∨ role = UNKNOWN_ROLE)
    (hterm : 2 ^ 61 - 1 ≤ term) (hterm2 : term < 2 ^ 63) :
    PackRoleAndTerm role term &&& kTermMask = kTermMask := by
  have hr8 := packedRole_lt_8 hrole
  have h0 : (0:Int) ≤ term := by omega
  unfold PackRoleAndTerm
  rw [toUInt64Nat_of_nonneg h0 (by omega)]
  have hmask : kTermMask < 2 ^ 61 := by rw [kTermMask_eq]; norm_num
  by_cases hz : term.toNat &&& kRoleMask = 0
  · have hlt : term.toNat < 2 ^ 61 := lt_of_and_kRoleMask_eq_zero (by omega) hz
    have heq : term.toNat = 2 ^ 61 - 1 := by omega
    have hcond : ¬(term.toNat &&& kRoleMask ≠ 0) := by simp [hz]
    rw [if_neg hcond, kPackedTermBits_eq]
    have hlt64 : term.toNat < 2 ^ 64 := by omega
    rw [Nat.mod_eq_of_lt (or_lt_two_pow_64 hr8 hlt64)]
    rw [or_and_kTermMask hlt, heq, kTermMask_eq]
  · rw [if_pos hz, kPackedTermBits_eq]
    have hlt64 : kTermMask < 2 ^ 64 := by omega
    rw [Nat.mod_eq_of_lt (or_lt_two_pow_64 hr8 hlt64)]
    exact or_and_kTermMask hmask

/-- Unpacking any word whose term field is the sentinel is the fatal path. -/
lemma UnpackTerm_sentinel {w : Nat} (h : w &&& kTermMask = kTermMask) :
    UnpackTerm w = none := by
  unfold UnpackTerm
  rw [if_pos h]

/-! ## Frame lemmas for the ConsensusMetadata mutators -/

namespace ConsensusMetadata

@[simp] lemma updateCache_pb (cm : ConsensusMetadata) :
    (UpdateRoleAndTermCache cm).pb = cm.pb := rfl

@[simp] lemma updateCache_leader (cm : ConsensusMetadata) :
    (UpdateRoleAndTermCache cm).leader_uuid = cm.leader_uuid := rfl

@[simp] lemma updateCache_pending (cm : ConsensusMetadata) :
    (UpdateRoleAndTermCache cm).has_pending_config = cm.has_pending_config := rfl

@[simp] lemma updateCache_role (cm : ConsensusMetadata) :
    (UpdateRoleAndTermCache cm).active_role = cm.active_role := rfl

variable (g : GetRoleFn)

@[simp] lemma updateActiveRole_pb (cm : ConsensusMetadata) :
    (UpdateActiveRole g cm).pb = cm.pb := rfl

@[simp] lemma updateActiveRole_leader (cm : ConsensusMetadata) :
    (UpdateActiveRole g cm).leader_uuid = cm.leader_uuid := rfl

@[simp] lemma updateActiveRole_pending (cm : ConsensusMetadata) :
    (UpdateActiveRole g cm).has_pending_config = cm.has_pending_config := rfl

@[simp] lemma clear_pending_pb (cm : ConsensusMetadata) :
    (cm.clear_pending_config g).pb = cm.pb := rfl

@[simp] lemma clear_pending_leader (cm : ConsensusMetadata) :
    (cm.clear_pending_config g).leader_uuid = cm.leader_uuid := rfl

@[simp] lemma clear_pending_flag (cm : ConsensusMetadata) :
    (cm.clear_pending_config g).has_pending_config = false := rfl

@[simp] lemma set_committed_pb_committed (c : RaftConfigPB) (cm : ConsensusMetadata) :
    (cm.set_committed_config g c).pb.committed_config = some c := by
  unfold set_committed_config
  dsimp only
  split <;> rfl

@[simp] lemma set_committed_pb_term (c : RaftConfigPB) (cm : ConsensusMetadata) :
    (cm.set_committed_config g c).pb.current_term = cm.pb.current_term := by
  unfold set_committed_config
  dsimp only
  split <;> rfl

@[simp] lemma set_committed_pb_voted (c : RaftConfigPB) (cm : ConsensusMetadata) :
    (cm.set_committed_config g c).pb.voted_for = cm.pb.voted_for := by
  unfold set_committed_config
  dsimp only
  split <;> rfl

@[simp] lemma set_committed_leader (c : RaftConfigPB) (cm : ConsensusMetadata) :
    (cm.set_committed_config g c).leader_uuid = cm.leader_uuid := by
  unfold set_committed_config
  dsimp only
  split <;> rfl

@[simp] lemma set_committed_flag (c : RaftConfigPB) (cm : ConsensusMetadata) :
    (cm.set_committed_config g c).has_pending_config = cm.has_pending_config := by
  unfold set_committed_config
  dsimp only
  split <;> rfl

@[simp] lemma set_leader_pb (u : String) (cm : ConsensusMetadata) :
    (cm.set_leader_uuid g u).pb = cm.pb := rfl

@[simp] lemma set_leader_leader (u : String) (cm : ConsensusMetadata) :
    (cm.set_leader_uuid g u).leader_uuid = u := rfl

@[simp] lemma set_leader_flag (u : String) (cm : ConsensusMetadata) :
    (cm.set_leader_uuid g u).has_pending_config = cm.has_pending_config := rfl

@[simp] lemma set_term_pb_term (t : Int) (cm : ConsensusMetadata) :
    (cm.set_current_term t).pb.current_term = some t := rfl

@[simp] lemma set_term_pb_voted (t : Int) (cm : ConsensusMetadata) :
    (cm.set_current_term t).pb.voted_for = cm.pb.voted_for := rfl

@[simp] lemma set_term_pb_committed (t : Int) (cm : ConsensusMetadata) :
    (cm.set_current_term t).pb.committed_config = cm.pb.committed_config := rfl

@[simp] lemma set_term_leader (t : Int) (cm : ConsensusMetadata) :
    (cm.set_current_term t).leader_uuid = cm.leader_uuid := rfl

@[simp] lemma set_term_flag (t : Int) (cm : ConsensusMetadata) :
    (cm.set_current_term t).has_pending_config = cm.has_pending_config := rfl

@[simp] lemma set_term_role (t : Int) (cm : ConsensusMetadata) :
    (cm.set_current_term t).active_role = cm.active_role := rfl

@[simp] lemma clear_voted_pb_term (cm : ConsensusMetadata) :
    cm.clear_voted_for.pb.current_term = cm.pb.current_term := rfl

@[simp] lemma clear_voted_pb_voted (cm : ConsensusMetadata) :
    cm.clear_voted_for.pb.voted_for = none := rfl

@[simp] lemma clear_voted_pb_committed (cm : ConsensusMetadata) :
    cm.clear_voted_for.pb.committed_config = cm.pb.committed_config := rfl

@[simp] lemma clear_voted_leader (cm : ConsensusMetadata) :
    cm.clear_voted_for.leader_uuid = cm.leader_uuid := rfl

@[simp] lemma clear_voted_flag (cm : ConsensusMetadata) :
    cm.clear_voted_for.has_pending_config = cm.has_pending_config := rfl

end ConsensusMetadata

/-! ## Cache coherence invariant -/

/-- A role value the role derivation can produce: one of the wire enum's
small role values, or `UNKNOWN_ROLE`. -/
def ValidRole (r : Nat) : Prop := r < 7 ∨ r = UNKNOWN_ROLE

/-- Cache coherence: the packed word is the pack of the live role and of the
stored term (read as `-1` when the protobuf has no term, exactly as
`UpdateRoleAndTermCache` does). -/
def CacheInv (cm : ConsensusMetadata) : Prop :=
  cm.role_and_term_cache
    = PackRoleAndTerm cm.active_role (cm.pb.current_term.getD (-1))

lemma cacheInv_updateCache (cm : ConsensusMetadata) :
    CacheInv cm.UpdateRoleAndTermCache := rfl

lemma cacheInv_updateActiveRole (g : GetRoleFn) (cm : ConsensusMetadata) :
    CacheInv (ConsensusMetadata.UpdateActiveRole g cm) := rfl

/-- Every mutator named by the cache-coherence property re-establishes (or
preserves) cache coherence and role validity. -/
lemma inv_applyMutator (g : GetRoleFn) (hg : ∀ p l c, ValidRole (g p l c))
    (cm : ConsensusMetadata) (m : Mutator)
    (h : CacheInv cm ∧ ValidRole cm.active_role) :
    CacheInv (applyMutator g cm m) ∧ ValidRole (applyMutator g cm m).active_role := by
  cases m with
  | setCurrentTerm t => exact ⟨rfl, h.2⟩
  | setCommittedConfig c =>
      show CacheInv (cm.set_committed_config g c) ∧
        ValidRole (cm.set_committed_config g c).active_role
      unfold ConsensusMetadata.set_committed_config
      dsimp only
      split
      · exact ⟨h.1, h.2⟩
      · exact ⟨rfl, hg _ _ _⟩
  | setPendingConfig c => exact ⟨rfl, hg _ _ _⟩
  | clearPendingConfig => exact ⟨rfl, hg _ _ _⟩
  | setLeaderUuid u => exact ⟨rfl, hg _ _ _⟩
  | merge cs => exact ⟨rfl, hg _ _ _⟩

/-- Cache coherence holds after any mutator sequence from a fresh object. -/
lemma inv_applyMutators (g : GetRoleFn) (hg : ∀ p l c, ValidRole (g p l c))
    (ms : List Mutator) (cm : ConsensusMetadata)
    (h : CacheInv cm ∧ ValidRole cm.active_role) :
    CacheInv (applyMutators g ms cm) ∧ ValidRole (applyMutators g ms cm).active_role := by
  induction ms generalizing cm with
  | nil => exact h
  | cons m ms ih =>
      show CacheInv (applyMutators g ms (applyMutator g cm m)) ∧ _
      exact ih _ (inv_applyMutator g hg cm m h)

lemma inv_mk0 (tid pid : String) :
    CacheInv (ConsensusMetadata.mk0 tid pid) ∧
    ValidRole (ConsensusMetadata.mk0 tid pid).active_role :=
  ⟨rfl, Or.inr rfl⟩

/-! ## Claim theorems: packed representation -/

/-- C2: for every role in the known role set (numeric values 0..6, per the spec's
role encoding) together with `UNKNOWN_ROLE` (999), and every term in
`[0, 2^61 - 2]`, packing followed by unpacking is the identity on both fields. -/
theorem c2_pack_unpack_roundtrip (role : Nat) (term : Int)
    (hrole : role < 7 ∨ role = UNKNOWN_ROLE)
    (h0 : 0 ≤ term) (h1 : term ≤ 2 ^ 61 - 2) :
    UnpackRole (PackRoleAndTerm role term) = role ∧
    UnpackTerm (PackRoleAndTerm role term) = some term :=
  ⟨UnpackRole_pack hrole h0 h1, UnpackTerm_pack hrole h0 h1⟩

/-- Witness for C2 at role `1`, term `5`. -/
theorem c2_pack_unpack_roundtrip_witness :
    UnpackRole (PackRoleAndTerm 1 5) = 1 ∧
    UnpackTerm (PackRoleAndTerm 1 5) = some 5 :=
  c2_pack_unpack_roundtrip 1 5 (Or.inl (by norm_num)) (by norm_num) (by norm_num)

/-- C3: packing any int64 term at or above `2^61 - 1` produces a word whose term
field is the sentinel `(1 <<< 61) - 1` (without crashing: `PackRoleAndTerm` is
total), and `UnpackTerm` on any word whose term field is that sentinel is the
fatal path (modelled as `none`). -/
theorem c3_term_sentinel (role : Nat) (term : Int) (w : Nat)
    (hrole : role < 7 ∨ role = UNKNOWN_ROLE)
    (hterm : 2 ^ 61 - 1 ≤ term) (hterm2 : term < 2 ^ 63) :
    PackRoleAndTerm role term &&& kTermMask = kTermMask ∧
    kTermMask = (1 <<< 61) - 1 ∧
    (w &&& kTermMask = kTermMask → UnpackTerm w = none) :=
  ⟨pack_term_sentinel hrole hterm hterm2, by decide,
   fun h => UnpackTerm_sentinel h⟩

/-- Witness for C3 at role `0`, term `2^61` and the sentinel word itself. -/
theorem c3_term_sentinel_witness :
    PackRoleAndTerm 0 (2 ^ 61) &&& kTermMask = kTermMask ∧
    kTermMask = (1 <<< 61) - 1 ∧
    ((2 ^ 61 - 1 : Nat) &&& kTermMask = kTermMask → UnpackTerm (2 ^ 61 - 1) = none) :=
  c3_term_sentinel 0 (2 ^ 61) (2 ^ 61 - 1) (Or.inl (by norm_num))
    (by norm_num) (by norm_num)

/-- C9: the constructor of a fresh `ConsensusMetadata` (whose protobuf has no
`current_term`) packs term `-1`, which stores the out-of-range sentinel in the
cache's term field, so `GetRoleAndTerm()` on it hits the fatal `UnpackTerm` path. -/
theorem c9_fresh_cmeta_sentinel (tid pid : String) :
    (ConsensusMetadata.mk0 tid pid).role_and_term_cache
        = PackRoleAndTerm UNKNOWN_ROLE (-1) ∧
    (ConsensusMetadata.mk0 tid pid).role_and_term_cache &&& kTermMask = kTermMask ∧
    (ConsensusMetadata.mk0 tid pid).GetRoleAndTerm = (UNKNOWN_ROLE, none) := by
  have hc : (ConsensusMetadata.mk0 tid pid).role_and_term_cache
      = PackRoleAndTerm UNKNOWN_ROLE (-1) := rfl
  refine ⟨hc, ?_, ?_⟩
  · rw [hc]; decide
  · simp only [ConsensusMetadata.GetRoleAndTerm]
    rw [hc]
    decide

/-! ## Claim theorems: ConsensusMetadata state machine -/

/-- C1 counterexample: after the mutator `set_current_term(2^61)` — which satisfies
its `DCHECK_GE(term, kMinimumTerm)` precondition — the cache word still equals
`Pack(active_role, current_term)`, but `GetRoleAndTerm()` hits the fatal sentinel
path for the term half, so it does not return the pair reported by the slow
accessors `active_role()` and `current_term()`. -/
theorem c1_counterexample :
    kMinimumTerm ≤ (2 ^ 61 : Int) ∧
    (applyMutators (fun _ _ _ => UNKNOWN_ROLE) [Mutator.setCurrentTerm (2 ^ 61)]
        (ConsensusMetadata.mk0 "tablet" "peer")).current_term = 2 ^ 61 ∧
    (applyMutators (fun _ _ _ => UNKNOWN_ROLE) [Mutator.setCurrentTerm (2 ^ 61)]
        (ConsensusMetadata.mk0 "tablet" "peer")).GetRoleAndTerm
      ≠ ((applyMutators (fun _ _ _ => UNKNOWN_ROLE) [Mutator.setCurrentTerm (2 ^ 61)]
          (ConsensusMetadata.mk0 "tablet" "peer")).active_role,
         some (applyMutators (fun _ _ _ => UNKNOWN_ROLE) [Mutator.setCurrentTerm (2 ^ 61)]
          (ConsensusMetadata.mk0 "tablet" "peer")).current_term) := by
  decide

/-- C1 (amended): after every sequence of the named mutators from a fresh object,
`role_and_term_cache` equals `Pack(active_role, current_term)` with the term read
as `-1` when unset; moreover whenever the stored term is set and lies in the
packable range `[0, 2^61 - 2]` (and the external role derivation yields valid
role values), `GetRoleAndTerm()` returns the same pair as the slow accessors
`active_role()` and `current_term()`. -/
theorem c1_cache_coherence (g : GetRoleFn) (hg : ∀ p l c, ValidRole (g p l c))
    (tid pid : String) (ms : List Mutator) (cm' : ConsensusMetadata)
    (hcm' : cm' = applyMutators g ms (ConsensusMetadata.mk0 tid pid)) :
    cm'.role_and_term_cache
      = PackRoleAndTerm cm'.active_role (cm'.pb.current_term.getD (-1)) ∧
    (∀ t : Int, cm'.pb.current_term = some t → 0 ≤ t → t ≤ 2 ^ 61 - 2 →
      cm'.GetRoleAndTerm = (cm'.active_role, some cm'.current_term)) := by
  subst hcm'
  obtain ⟨hinv, hval⟩ := inv_applyMutators g hg ms _ (inv_mk0 tid pid)
  refine ⟨hinv, ?_⟩
  intro t ht h0 h1
  unfold ConsensusMetadata.GetRoleAndTerm
  dsimp only
  rw [hinv, ht]
  simp only [Option.getD_some]
  rw [UnpackRole_pack hval h0 h1, UnpackTerm_pack hval h0 h1]
  unfold ConsensusMetadata.current_term
  rw [ht]
  rfl

/-- Witness for the amended C1 on the sequence
`[set_current_term 1, set_leader_uuid "x"]`. -/
theorem c1_cache_coherence_witness :
    (applyMutators (fun _ _ _ => UNKNOWN_ROLE)
        [Mutator.setCurrentTerm 1, Mutator.setLeaderUuid "x"]
        (ConsensusMetadata.mk0 "tablet" "peer")).role_and_term_cache
      = PackRoleAndTerm
          (applyMutators (fun _ _ _ => UNKNOWN_ROLE)
            [Mutator.setCurrentTerm 1, Mutator.setLeaderUuid "x"]
            (ConsensusMetadata.mk0 "tablet" "peer")).active_role
          ((applyMutators (fun _ _ _ => UNKNOWN_ROLE)
            [Mutator.setCurrentTerm 1, Mutator.setLeaderUuid "x"]
            (ConsensusMetadata.mk0 "tablet" "peer")).pb.current_term.getD (-1)) ∧
    (applyMutators (fun _ _ _ => UNKNOWN_ROLE)
        [Mutator.setCurrentTerm 1, Mutator.setLeaderUuid "x"]
        (ConsensusMetadata.mk0 "tablet" "peer")).GetRoleAndTerm
      = ((applyMutators (fun _ _ _ => UNKNOWN_ROLE)
            [Mutator.setCurrentTerm 1, Mutator.setLeaderUuid "x"]
            (ConsensusMetadata.mk0 "tablet" "peer")).active_role,
         some (applyMutators (fun _ _ _ => UNKNOWN_ROLE)
            [Mutator.setCurrentTerm 1, Mutator.setLeaderUuid "x"]
            (ConsensusMetadata.mk0 "tablet" "peer")).current_term) := by
  have h := c1_cache_coherence (fun _ _ _ => UNKNOWN_ROLE)
    (fun _ _ _ => Or.inr rfl) "tablet" "peer"
    [Mutator.setCurrentTerm 1, Mutator.setLeaderUuid "x"] _ rfl
  exact ⟨h.1, h.2 1 rfl (by norm_num) (by norm_num)⟩

/-- C6 counterexample: `set_current_term` checks only `term ≥ kMinimumTerm`; a
later call with a smaller but still valid term decreases the stored term, so the
`set_current_term` path is not monotonically non-decreasing. -/
theorem c6_counterexample :
    kMinimumTerm ≤ (5 : Int) ∧ kMinimumTerm ≤ (3 : Int) ∧
    (((ConsensusMetadata.mk0 "tablet" "peer").set_current_term 5).set_current_term 3).current_term
      < ((ConsensusMetadata.mk0 "tablet" "peer").set_current_term 5).current_term := by
  decide

/-- Run a sequence of `set_current_term` calls, left to right. -/
def applySetTerms (ts : List Int) (cm : ConsensusMetadata) : ConsensusMetadata :=
  ts.foldl (fun c t => c.set_current_term t) cm

/-- C6 (amended): along the `set_current_term` path, the stored term after each
call equals that call's argument, which the `DCHECK_GE` precondition requires to
be at least `kMinimumTerm`; hence the stored term never drops below
`kMinimumTerm`, but it is not forced to be non-decreasing. -/
theorem c6_set_current_term (tid pid : String) (ts0 : List Int) (t : Int)
    (ht : kMinimumTerm ≤ t) :
    (applySetTerms (ts0 ++ [t]) (ConsensusMetadata.mk0 tid pid)).pb.current_term
      = some t ∧
    kMinimumTerm ≤ (applySetTerms (ts0 ++ [t]) (ConsensusMetadata.mk0 tid pid)).current_term := by
  unfold applySetTerms
  rw [List.foldl_append]
  simp only [List.foldl_cons, List.foldl_nil]
  refine ⟨rfl, ?_⟩
  unfold ConsensusMetadata.current_term
  simpa using ht

/-- Witness for the amended C6 on the sequence `[set 7, set 2]`. -/
theorem c6_set_current_term_witness :
    (applySetTerms ([7] ++ [2]) (ConsensusMetadata.mk0 "tablet" "peer")).pb.current_term
      = some 2 ∧
    kMinimumTerm ≤ (applySetTerms ([7] ++ [2]) (ConsensusMetadata.mk0 "tablet" "peer")).current_term :=
  c6_set_current_term "tablet" "peer" [7] 2 (by decide)

/-- C4: postconditions of `MergeCommittedConsensusStatePB(other)`: no pending
config, empty leader, committed config replaced; and when the incoming term is
strictly greater than the previous one, the term is adopted and the vote cleared. -/
theorem c4_merge_postconditions (g : GetRoleFn) (cm : ConsensusMetadata)
    (cstate : ConsensusStatePB) (ct : Int) (hct : cm.pb.current_term = some ct)
    (cm' : ConsensusMetadata)
    (hcm' : cm' = cm.MergeCommittedConsensusStatePB g cstate) :
    cm'.has_pending_config = false ∧
    cm'.leader_uuid = "" ∧
    cm'.CommittedConfig = cstate.committed_config ∧
    (cstate.current_term > ct →
      cm'.current_term = cstate.current_term ∧ cm'.has_voted_for = false) := by
  subst hcm'
  have hcur : cm.current_term = ct := by
    unfold ConsensusMetadata.current_term
    rw [hct]
    rfl
  unfold ConsensusMetadata.MergeCommittedConsensusStatePB
  dsimp only
  rw [hcur]
  refine ⟨by simp, by simp, ?_, ?_⟩
  · unfold ConsensusMetadata.CommittedConfig
    simp
  · intro hgt
    rw [if_pos hgt]
    constructor
    · unfold ConsensusMetadata.current_term
      simp
    · unfold ConsensusMetadata.has_voted_for
      simp

/-- A sample role-derivation function for witnesses. -/
def gZero : GetRoleFn := fun _ _ _ => 0

/-- A sample Raft configuration for witnesses. -/
def cfgA : RaftConfigPB := { opid_index := 1, peer_uuids := ["a", "b"] }

/-- A sample metadata object at term 3 with a vote recorded. -/
def cmSample : ConsensusMetadata :=
  ((ConsensusMetadata.mk0 "tablet" "peer").set_current_term 3).set_voted_for "p2"

/-- Witness for C4: merging a snapshot at term 7 into `cmSample` (term 3). -/
theorem c4_merge_postconditions_witness :
    (cmSample.MergeCommittedConsensusStatePB gZero
        { current_term := 7, committed_config := cfgA }).has_pending_config = false ∧
    (cmSample.MergeCommittedConsensusStatePB gZero
        { current_term := 7, committed_config := cfgA }).leader_uuid = "" ∧
    (cmSample.MergeCommittedConsensusStatePB gZero
        { current_term := 7, committed_config := cfgA }).CommittedConfig = cfgA ∧
    (cmSample.MergeCommittedConsensusStatePB gZero
        { current_term := 7, committed_config := cfgA }).current_term = 7 ∧
    (cmSample.MergeCommittedConsensusStatePB gZero
        { current_term := 7, committed_config := cfgA }).has_voted_for = false := by
  have h := c4_merge_postconditions gZero cmSample
    { current_term := 7, committed_config := cfgA } 3 rfl _ rfl
  exact ⟨h.1, h.2.1, h.2.2.1, (h.2.2.2 (by norm_num)).1, (h.2.2.2 (by norm_num)).2⟩

/-- C10: when the incoming snapshot's term is not greater than the current term,
`MergeCommittedConsensusStatePB` leaves `current_term` and `voted_for` (presence
and value) unchanged, while still clearing the leader, replacing the committed
config, and clearing any pending config. -/
theorem c10_merge_frame (g : GetRoleFn) (cm : ConsensusMetadata)
    (cstate : ConsensusStatePB) (ct : Int) (hct : cm.pb.current_term = some ct)
    (hle : cstate.current_term ≤ ct) (cm' : ConsensusMetadata)
    (hcm' : cm' = cm.MergeCommittedConsensusStatePB g cstate) :
    cm'.pb.current_term = cm.pb.current_term ∧
    cm'.pb.voted_for = cm.pb.voted_for ∧
    cm'.leader_uuid = "" ∧
    cm'.CommittedConfig = cstate.committed_config ∧
    cm'.has_pending_config = false := by
  subst hcm'
  have hcur : cm.current_term = ct := by
    unfold ConsensusMetadata.current_term
    rw [hct]
    rfl
  unfold ConsensusMetadata.MergeCommittedConsensusStatePB
  dsimp only
  rw [hcur, if_neg (not_lt.mpr hle)]
  refine ⟨by simp, by simp, by simp, ?_, by simp⟩
  unfold ConsensusMetadata.CommittedConfig
  simp

/-! ## Flush (consensus_meta.cc) -/

/-- `FlushMode` from consensus_meta.h. -/
inductive FlushMode where
  | OVERWRITE
  | NO_OVERWRITE
deriving DecidableEq

/-- The filesystem operations `Flush` can attempt, in program order. -/
inductive FsEvent where
  | createDir
  | syncDir
  | writeFile
  | getFileSize
deriving DecidableEq

/-- The external collaborators of `Flush` (spec §6): `VerifyRaftConfig` from
quorum_util.cc, and the filesystem / protobuf-container layer (`CreateDirIfMissing`,
`SyncDir`, `WritePBContainerToPath`, `GetFileSize`). The environment supplies each
operation's outcome. -/
structure FlushEnv where
  verifyRaftConfig : RaftConfigPB → Except String Unit
  createDirIfMissing : Except String Bool
  syncDir : Except String Unit
  writePBContainer : FlushMode → Except String Unit
  getFileSize : Except String Nat

/-- `RETURN_NOT_OK_PREPEND`: prepend a context message to an error. -/
def statusPrepend (msg s : String) : String := msg ++ ": " ++ s

/-- `ConsensusMetadata::Flush(flush_mode)`: bump the flush counter, verify the
committed config (failing before any filesystem action), create the metadata dir,
fsync its parent if it was created, write the protobuf container, refresh
`on_disk_size`. Returns the outcome together with the trace of filesystem
operations attempted; the fault-injection hook and the slow-execution logging are
testing/observability-only and have no state effect. -/
def ConsensusMetadata.Flush (env : FlushEnv) (flush_mode : FlushMode)
    (cm0 : ConsensusMetadata) : Except String ConsensusMetadata × List FsEvent :=
  let cm := { cm0 with flush_count_for_tests := cm0.flush_count_for_tests + 1 }
  match env.verifyRaftConfig (cm.pb.committed_config.getD {}) with
  | .error e =>
      (.error (statusPrepend "Invalid config in ConsensusMetadata, cannot flush to disk" e), [])
  | .ok _ =>
    match env.createDirIfMissing with
    | .error e =>
        (.error (statusPrepend "Unable to create consensus metadata root dir" e),
         [.createDir])
    | .ok created =>
      let write := fun (evs : List FsEvent) =>
        match env.writePBContainer flush_mode with
        | .error e =>
            (Except.error (statusPrepend "Unable to write consensus meta file" e),
             evs ++ [FsEvent.writeFile])
        | .ok _ =>
          match env.getFileSize with
          | .error e => (Except.error e, evs ++ [FsEvent.writeFile, FsEvent.getFileSize])
          | .ok sz =>
              (Except.ok { cm with on_disk_size := sz },
               evs ++ [FsEvent.writeFile, FsEvent.getFileSize])
      if created then
        match env.syncDir with
        | .error e =>
            (.error (statusPrepend "Unable to fsync consensus parent dir" e),
             [.createDir, .syncDir])
        | .ok _ => write [.createDir, .syncDir]
      else write [.createDir]

/-- C7: whenever `VerifyRaftConfig(committed_config)` fails, `Flush` in either mode
returns an error prefixed "Invalid config in ConsensusMetadata, cannot flush to
disk", and no filesystem operation — in particular no file write — is attempted. -/
theorem c7_flush_invalid_config (env : FlushEnv) (mode : FlushMode)
    (cm : ConsensusMetadata) (e : String)
    (hv : env.verifyRaftConfig cm.CommittedConfig = .error e) :
    cm.Flush env mode
      = (.error (statusPrepend
          "Invalid config in ConsensusMetadata, cannot flush to disk" e), []) ∧
    FsEvent.writeFile ∉ (cm.Flush env mode).2 := by
  have hv' : env.verifyRaftConfig (cm.pb.committed_config.getD {}) = .error e := hv
  have heq : cm.Flush env mode
      = (.error (statusPrepend
          "Invalid config in ConsensusMetadata, cannot flush to disk" e), []) := by
    unfold ConsensusMetadata.Flush
    dsimp only
    rw [hv']
  refine ⟨heq, ?_⟩
  rw [heq]
  simp

/-- An environment whose config verification always fails. -/
def envBadConfig : FlushEnv :=
  { verifyRaftConfig := fun _ => .error "bad config"
    createDirIfMissing := .ok false
    syncDir := .ok ()
    writePBContainer := fun _ => .ok ()
    getFileSize := .ok 10 }

/-- Witness for C7: flushing `cmSample` under a failing verifier. -/
theorem c7_flush_invalid_config_witness :
    cmSample.Flush envBadConfig FlushMode.OVERWRITE
      = (.error (statusPrepend
          "Invalid config in ConsensusMetadata, cannot flush to disk" "bad config"), []) ∧
    FsEvent.writeFile ∉ (cmSample.Flush envBadConfig FlushMode.OVERWRITE).2 :=
  c7_flush_invalid_config envBadConfig FlushMode.OVERWRITE cmSample "bad config" rfl

/-- Witness for C10: merging a snapshot at term 2 into `cmSample` (term 3). -/
theorem c10_merge_frame_witness :
    (cmSample.MergeCommittedConsensusStatePB gZero
        { current_term := 2, committed_config := cfgA }).pb.current_term
      = cmSample.pb.current_term ∧
    (cmSample.MergeCommittedConsensusStatePB gZero
        { current_term := 2, committed_config := cfgA }).pb.voted_for
      = cmSample.pb.voted_for ∧
    (cmSample.MergeCommittedConsensusStatePB gZero
        { current_term := 2, committed_config := cfgA }).leader_uuid = "" ∧
    (cmSample.MergeCommittedConsensusStatePB gZero
        { current_term := 2, committed_config := cfgA }).CommittedConfig = cfgA ∧
    (cmSample.MergeCommittedConsensusStatePB gZero
        { current_term := 2, committed_config := cfgA }).has_pending_config = false := by
  have h := c10_merge_frame gZero cmSample
    { current_term := 2, committed_config := cfgA } 3 rfl (by norm_num) _ rfl
  exact h

/-! ## RowSetTree (tablet/rowset_tree.cc) -/

/-- `Slice::compare`: memcmp over the common length, then compare lengths —
equivalently, lexicographic comparison of byte strings. -/
def sliceCompare : List Nat → List Nat → Ordering
  | [], [] => .eq
  | [], _ :: _ => .lt
  | _ :: _, [] => .gt
  | a :: as, b :: bs =>
    if a < b then .lt else if b < a then .gt else sliceCompare as bs

/-- `a` is at most `b` in the byte-string order (`compare(a, b) <= 0`). -/
def sliceLe (a b : List Nat) : Bool :=
  match sliceCompare a b with
  | .gt => false
  | _ => true

lemma sliceLe_nil (b : List Nat) : sliceLe [] b = true := by
  cases b <;> rfl

lemma sliceCompare_cons (x y : Nat) (xs ys : List Nat) :
    sliceCompare (x :: xs) (y :: ys) =
      if x < y then .lt else if y < x then .gt else sliceCompare xs ys := by
  simp only [sliceCompare]

lemma sliceLe_cons (x y : Nat) (xs ys : List Nat) :
    sliceLe (x :: xs) (y :: ys) =
      (if x < y then true else if y < x then false else sliceLe xs ys) := by
  unfold sliceLe
  rw [sliceCompare_cons]
  by_cases h1 : x < y
  · simp [h1]
  · by_cases h2 : y < x
    · simp [h1, h2]
    · simp [h1, h2, sliceLe]

lemma sliceLe_refl (a : List Nat) : sliceLe a a = true := by
  induction a with
  | nil => rfl
  | cons x xs ih => simp [sliceLe_cons, ih]

lemma sliceLe_total (a b : List Nat) : sliceLe a b = true ∨ sliceLe b a = true := by
  induction a generalizing b with
  | nil => exact Or.inl (sliceLe_nil b)
  | cons x xs ih =>
    cases b with
    | nil => exact Or.inr (sliceLe_nil _)
    | cons y ys =>
      rw [sliceLe_cons, sliceLe_cons]
      by_cases hxy : x < y
      · left; rw [if_pos hxy]
      · by_cases hyx : y < x
        · right; rw [if_pos hyx]
        · rw [if_neg hxy, if_neg hyx, if_neg hyx, if_neg hxy]
          exact ih ys

lemma sliceLe_trans : ∀ (a b c : List Nat), sliceLe a b = true → sliceLe b c = true →
    sliceLe a c = true := by
  intro a
  induction a with
  | nil => intro b c _ _; exact sliceLe_nil c
  | cons x xs ih =>
    intro b c h1 h2
    cases b with
    | nil => exact absurd h1 (by simp [sliceLe, sliceCompare])
    | cons y ys =>
      cases c with
      | nil => exact absurd h2 (by simp [sliceLe, sliceCompare])
      | cons z zs =>
        rw [sliceLe_cons] at h1 h2 ⊢
        have hxy' : ¬ y < x := by
          intro hyx
          rw [if_neg (by omega), if_pos hyx] at h1
          exact absurd h1 (by simp)
        have hyz' : ¬ z < y := by
          intro hzy
          rw [if_neg (by omega), if_pos hzy] at h2
          exact absurd h2 (by simp)
        by_cases hxz : x < z
        · rw [if_pos hxz]
        · rw [if_neg hxz, if_neg (by omega)]
          by_cases hxy : x < y
          · exfalso; omega
          · by_cases hyz : y < z
            · exfalso; omega
            · rw [if_neg hxy, if_neg hxy'] at h1
              rw [if_neg hyz, if_neg hyz'] at h2
              exact ih ys zs h1 h2

/-- The outcome of `RowSet::GetBounds` for one rowset, fixed at `Reset` time. -/
inductive BoundsResult where
  | ok (min_key max_key : List Nat)
  | notSupported
  | err (msg : String)
deriving DecidableEq

/-- A rowset as seen by `RowSetTree`: an identity plus what its `GetBounds`
reports (the rowset collaborator of spec §6). -/
structure RowSet where
  id : Nat
  bounds : BoundsResult
deriving DecidableEq

/-- `RowSetWithBounds` from rowset_tree.cc: a rowset plus owned copies of its
bounds taken at `Reset` time. -/
structure RowSetWithBounds where
  rowset : RowSet
  min_key : List Nat
  max_key : List Nat
deriving DecidableEq

/-- `RowSetTree`'s state after a successful `Reset`. -/
structure RowSetTree where
  entries : List RowSetWithBounds
  unbounded_rowsets : List RowSet
  all_rowsets : List RowSet
  initted : Bool
deriving DecidableEq

/-- The per-rowset loop of `RowSetTree::Reset`: partition the rowsets into
bounded entries and unbounded rowsets, or fail with the first hard
`GetBounds` error. -/
def collectBounds : List RowSet → Except String (List RowSetWithBounds × List RowSet)
  | [] => .ok ([], [])
  | rs :: rest =>
    match rs.bounds with
    | .notSupported => (collectBounds rest).map fun p => (p.1, rs :: p.2)
    | .err e => .error e
    | .ok mn mx => (collectBounds rest).map fun p => (⟨rs, mn, mx⟩ :: p.1, p.2)

/-- `RowSetTree::Reset(rowsets)`: on success install the entries, the unbounded
rowsets, the full rowset list and the initted flag; on a hard `GetBounds` error
fail the whole reset — the locally allocated entries are dropped and nothing is
installed. -/
def RowSetTree.Reset (rowsets : List RowSet) : Except String RowSetTree :=
  (collectBounds rowsets).map fun p =>
    { entries := p.1
      unbounded_rowsets := p.2
      all_rowsets := rowsets
      initted := true }

/-- Modelled from the spec: the interval tree's queries live in
`util/interval_tree-inl.h`, which is not under src/. Per spec §4.C,
`FindContainingPoint(P, out)` appends every stored interval `I` with
`get_left(I) <= P <= get_right(I)`, keys compared via `Slice::compare`
(the `RowSetIntervalTraits` of rowset_tree.cc). -/
def IntervalTree.FindContainingPoint (entries : List RowSetWithBounds)
    (p : List Nat) : List RowSetWithBounds :=
  entries.filter fun e => sliceLe e.min_key p && sliceLe p e.max_key

/-- Modelled from the spec: per spec §4.C, `FindIntersectingInterval(Q, out)`
appends every stored interval that intersects the closed query interval
`[get_left(Q), get_right(Q)]`; over a total order two closed intervals
intersect exactly when each one's left end is at most the other's right end. -/
def IntervalTree.FindIntersectingInterval (entries : List RowSetWithBounds)
    (lower upper : List Nat) : List RowSetWithBounds :=
  entries.filter fun e => sliceLe e.min_key upper && sliceLe lower e.max_key

/-- `RowSetTree::FindRowSetsIntersectingInterval(lower, upper, rowsets)`:
append every unbounded rowset, then the bounded rowsets reported by the
interval tree for the closed interval `[lower, upper]`. -/
def RowSetTree.FindRowSetsIntersectingInterval (tree : RowSetTree)
    (lower upper : List Nat) (rowsets : List RowSet) : List RowSet :=
  rowsets ++ tree.unbounded_rowsets ++
    (IntervalTree.FindIntersectingInterval tree.entries lower upper).map (·.rowset)

/-- `RowSetTree::FindRowSetsWithKeyInRange(encoded_key, rowsets)`: append every
unbounded rowset, then the bounded rowsets whose interval contains the key. -/
def RowSetTree.FindRowSetsWithKeyInRange (tree : RowSetTree)
    (encoded_key : List Nat) (rowsets : List RowSet) : List RowSet :=
  rowsets ++ tree.unbounded_rowsets ++
    (IntervalTree.FindContainingPoint tree.entries encoded_key).map (·.rowset)

/-- The first hard (non-`NotSupported`) `GetBounds` error in a rowset list. -/
def firstHardErr : List RowSet → Option String
  | [] => none
  | rs :: rest =>
    match rs.bounds with
    | .err e => some e
    | _ => firstHardErr rest

/-- The entry `Reset` builds for a bounded rowset. -/
def toEntry (rs : RowSet) : Option RowSetWithBounds :=
  match rs.bounds with
  | .ok mn mx => some ⟨rs, mn, mx⟩
  | _ => none

/-- Whether `Reset` classifies a rowset as unbounded. -/
def isUnbounded (rs : RowSet) : Bool :=
  match rs.bounds with
  | .notSupported => true
  | _ => false

lemma isUnbounded_iff {rs : RowSet} :
    isUnbounded rs = true ↔ rs.bounds = .notSupported := by
  unfold isUnbounded
  cases rs.bounds <;> simp

lemma toEntry_eq_some {rs : RowSet} {e : RowSetWithBounds} :
    toEntry rs = some e ↔ rs.bounds = .ok e.min_key e.max_key ∧ e.rowset = rs := by
  unfold toEntry
  cases e with
  | mk er emn emx =>
    cases hb : rs.bounds with
    | ok mn mx =>
        simp only [Option.some.injEq, RowSetWithBounds.mk.injEq]
        constructor
        · rintro ⟨rfl, rfl, rfl⟩
          exact ⟨rfl, rfl⟩
        · rintro ⟨hok, rfl⟩
          cases hok
          exact ⟨rfl, rfl, rfl⟩
    | notSupported => simp
    | err e => simp

/-- Full characterization of the `Reset` loop: the first hard error if there is
one, else the bounded entries and the unbounded rowsets in input order. -/
lemma collectBounds_eq (rowsets : List RowSet) :
    collectBounds rowsets = match firstHardErr rowsets with
      | some e => .error e
      | none => .ok (rowsets.filterMap toEntry, rowsets.filter isUnbounded) := by
  induction rowsets with
  | nil => rfl
  | cons rs rest ih =>
    unfold collectBounds firstHardErr
    cases hb : rs.bounds with
    | notSupported =>
        rw [ih]
        cases hfe : firstHardErr rest with
        | none =>
            simp [List.filterMap_cons, List.filter_cons, toEntry, isUnbounded, hb,
              Except.map]
        | some e => simp [Except.map]
    | err e =>
        simp
    | ok mn mx =>
        rw [ih]
        cases hfe : firstHardErr rest with
        | none =>
            simp [List.filterMap_cons, List.filter_cons, toEntry, isUnbounded, hb,
              Except.map]
        | some e => simp [Except.map]

/-- What a successful `Reset` installs. -/
lemma Reset_ok_elim {S : List RowSet} {tree : RowSetTree}
    (h : RowSetTree.Reset S = .ok tree) :
    tree.entries = S.filterMap toEntry ∧
    tree.unbounded_rowsets = S.filter isUnbounded ∧
    tree.all_rowsets = S ∧ tree.initted = true := by
  unfold RowSetTree.Reset at h
  rw [collectBounds_eq] at h
  cases hfe : firstHardErr S <;> rw [hfe] at h
  · simp only [Except.map, Except.ok.injEq] at h
    subst h
    exact ⟨rfl, rfl, rfl, rfl⟩
  · simp [Except.map] at h

/-! ## Claim theorems: RowSetTree -/

/-- C8: every rowset whose `GetBounds` reports `NotSupported` goes to
`unbounded_rowsets` without failing the reset, the remaining rowsets become the
bounded entries, and if some rowset's `GetBounds` reports a hard error, `Reset`
returns the first such error and installs nothing (the entries built so far are
dropped with the failed reset). -/
theorem c8_reset_error_handling (rowsets : List RowSet) :
    (firstHardErr rowsets = none →
      RowSetTree.Reset rowsets = .ok
        { entries := rowsets.filterMap toEntry
          unbounded_rowsets := rowsets.filter isUnbounded
          all_rowsets := rowsets
          initted := true }) ∧
    (∀ e, firstHardErr rowsets = some e → RowSetTree.Reset rowsets = .error e) := by
  unfold RowSetTree.Reset
  rw [collectBounds_eq]
  constructor
  · intro h
    rw [h]
    rfl
  · intro e h
    rw [h]
    rfl

/-- Witness for C8: one fully successful reset with a `NotSupported` rowset, and
one reset failing on a hard `GetBounds` error. -/
theorem c8_reset_error_handling_witness :
    RowSetTree.Reset [⟨0, .ok [1] [3]⟩, ⟨1, .notSupported⟩]
      = .ok { entries := [⟨⟨0, .ok [1] [3]⟩, [1], [3]⟩]
              unbounded_rowsets := [⟨1, .notSupported⟩]
              all_rowsets := [⟨0, .ok [1] [3]⟩, ⟨1, .notSupported⟩]
              initted := true } ∧
    RowSetTree.Reset [⟨0, .notSupported⟩, ⟨1, .err "io error"⟩]
      = .error "io error" := by
  constructor
  · have h := (c8_reset_error_handling [⟨0, .ok [1] [3]⟩, ⟨1, .notSupported⟩]).1 rfl
    exact h
  · exact (c8_reset_error_handling [⟨0, .notSupported⟩, ⟨1, .err "io error"⟩]).2
      "io error" rfl

/-- Over the byte-string order, a well-formed closed interval `[mn, mx]` meets a
well-formed closed interval `[L, U]` iff `mn ≤ U` and `L ≤ mx`. -/
lemma intersect_iff {mn mx L U : List Nat}
    (hwf : sliceLe mn mx = true) (hLU : sliceLe L U = true) :
    (sliceLe mn U = true ∧ sliceLe L mx = true) ↔
      ∃ k, sliceLe mn k = true ∧ sliceLe k mx = true ∧
           sliceLe L k = true ∧ sliceLe k U = true := by
  constructor
  · rintro ⟨h1, h2⟩
    by_cases hLmn : sliceLe L mn = true
    · exact ⟨mn, sliceLe_refl mn, hwf, hLmn, h1⟩
    · have hmnL : sliceLe mn L = true := (sliceLe_total L mn).resolve_left hLmn
      exact ⟨L, hmnL, h2, sliceLe_refl L, hLU⟩
  · rintro ⟨k, h1, h2, h3, h4⟩
    exact ⟨sliceLe_trans mn k U h1 h4, sliceLe_trans L k mx h3 h2⟩

/-- Membership in the mapped results of the (spec-modelled) containing-point
query over the entries a successful `Reset` installs. -/
lemma mem_containing_point {S : List RowSet} {k : List Nat} {r : RowSet} :
    (r ∈ (IntervalTree.FindContainingPoint (S.filterMap toEntry) k).map (·.rowset)) ↔
      (r ∈ S ∧ ∃ mn mx, r.bounds = .ok mn mx ∧
        sliceLe mn k = true ∧ sliceLe k mx = true) := by
  unfold IntervalTree.FindContainingPoint
  simp only [List.mem_map, List.mem_filter, List.mem_filterMap, Bool.and_eq_true,
    toEntry_eq_some]
  constructor
  · rintro ⟨e, ⟨⟨rs, hrs, hok, hre⟩, hle1, hle2⟩, rfl⟩
    subst hre
    exact ⟨hrs, e.min_key, e.max_key, hok, hle1, hle2⟩
  · rintro ⟨hr, mn, mx, hok, hle1, hle2⟩
    exact ⟨⟨r, mn, mx⟩, ⟨⟨r, hr, hok, rfl⟩, hle1, hle2⟩, rfl⟩

/-- Membership in the mapped results of the (spec-modelled) intersecting-interval
query over the entries a successful `Reset` installs. -/
lemma mem_intersecting {S : List RowSet} {L U : List Nat} {r : RowSet} :
    (r ∈ (IntervalTree.FindIntersectingInterval (S.filterMap toEntry) L U).map (·.rowset)) ↔
      (r ∈ S ∧ ∃ mn mx, r.bounds = .ok mn mx ∧
        sliceLe mn U = true ∧ sliceLe L mx = true) := by
  unfold IntervalTree.FindIntersectingInterval
  simp only [List.mem_map, List.mem_filter, List.mem_filterMap, Bool.and_eq_true,
    toEntry_eq_some]
  constructor
  · rintro ⟨e, ⟨⟨rs, hrs, hok, hre⟩, hle1, hle2⟩, rfl⟩
    subst hre
    exact ⟨hrs, e.min_key, e.max_key, hok, hle1, hle2⟩
  · rintro ⟨hr, mn, mx, hok, hle1, hle2⟩
    exact ⟨⟨r, mn, mx⟩, ⟨⟨r, hr, hok, rfl⟩, hle1, hle2⟩, rfl⟩

/-- C5: over any successfully `Reset` snapshot `S` whose stored per-rowset bounds
are ordered (`min <= max`, as bounds of nonempty sorted rowsets are) and any
ordered query interval `[L, U]`: `FindRowSetsWithKeyInRange(K)` appends exactly
the rowsets of `S` that are unbounded or whose stored `[min_key, max_key]`
contains `K`, and `FindRowSetsIntersectingInterval(L, U)` appends exactly the
rowsets of `S` that are unbounded or whose stored bounds have non-empty
intersection with `[L, U]`, with keys compared lexicographically as byte
strings. -/
theorem c5_query_characterization (S : List RowSet) (tree : RowSetTree)
    (hreset : RowSetTree.Reset S = .ok tree)
    (hwf : ∀ rs ∈ S, ∀ mn mx, rs.bounds = .ok mn mx → sliceLe mn mx = true)
    (L U : List Nat) (hLU : sliceLe L U = true) :
    (∀ (acc : List RowSet) (k : List Nat) (r : RowSet),
      r ∈ tree.FindRowSetsWithKeyInRange k acc ↔
        r ∈ acc ∨ (r ∈ S ∧ (r.bounds = .notSupported ∨
          ∃ mn mx, r.bounds = .ok mn mx ∧
            sliceLe mn k = true ∧ sliceLe k mx = true))) ∧
    (∀ (acc : List RowSet) (r : RowSet),
      r ∈ tree.FindRowSetsIntersectingInterval L U acc ↔
        r ∈ acc ∨ (r ∈ S ∧ (r.bounds = .notSupported ∨
          ∃ mn mx, r.bounds = .ok mn mx ∧
            ∃ k, sliceLe mn k = true ∧ sliceLe k mx = true ∧
                 sliceLe L k = true ∧ sliceLe k U = true))) := by
  obtain ⟨he, hu, _, _⟩ := Reset_ok_elim hreset
  constructor
  · intro acc k r
    unfold RowSetTree.FindRowSetsWithKeyInRange
    rw [he, hu]
    simp only [List.append_assoc, List.mem_append, mem_containing_point,
      List.mem_filter, isUnbounded_iff]
    constructor
    · rintro (h | ⟨hr, hb⟩ | ⟨hr, mn, mx, hok, hle1, hle2⟩)
      · exact Or.inl h
      · exact Or.inr ⟨hr, Or.inl hb⟩
      · exact Or.inr ⟨hr, Or.inr ⟨mn, mx, hok, hle1, hle2⟩⟩
    · rintro (h | ⟨hr, hb | ⟨mn, mx, hok, hle1, hle2⟩⟩)
      · exact Or.inl h
      · exact Or.inr (Or.inl ⟨hr, hb⟩)
      · exact Or.inr (Or.inr ⟨hr, mn, mx, hok, hle1, hle2⟩)
  · intro acc r
    unfold RowSetTree.FindRowSetsIntersectingInterval
    rw [he, hu]
    simp only [List.append_assoc, List.mem_append, mem_intersecting,
      List.mem_filter, isUnbounded_iff]
    constructor
    · rintro (h | ⟨hr, hb⟩ | ⟨hr, mn, mx, hok, hle1, hle2⟩)
      · exact Or.inl h
      · exact Or.inr ⟨hr, Or.inl hb⟩
      · refine Or.inr ⟨hr, Or.inr ⟨mn, mx, hok, ?_⟩⟩
        exact (intersect_iff (hwf r hr mn mx hok) hLU).mp ⟨hle1, hle2⟩
    · rintro (h | ⟨hr, hb | ⟨mn, mx, hok, hex⟩⟩)
      · exact Or.inl h
      · exact Or.inr (Or.inl ⟨hr, hb⟩)
      · obtain ⟨hle1, hle2⟩ := (intersect_iff (hwf r hr mn mx hok) hLU).mpr hex
        exact Or.inr (Or.inr ⟨hr, mn, mx, hok, hle1, hle2⟩)

/-- The rowset snapshot of the spec's point-query scenario: bounds
`["a","c"]`, `["b","d"]`, `["e","g"]` as byte strings, plus one unbounded. -/
def rowsetsSample : List RowSet :=
  [⟨0, .ok [97] [99]⟩, ⟨1, .ok [98] [100]⟩, ⟨2, .ok [101] [103]⟩, ⟨3, .notSupported⟩]

/-- The tree a successful `Reset` of `rowsetsSample` installs. -/
def treeSample : RowSetTree :=
  { entries := [⟨⟨0, .ok [97] [99]⟩, [97], [99]⟩, ⟨⟨1, .ok [98] [100]⟩, [98], [100]⟩,
                ⟨⟨2, .ok [101] [103]⟩, [101], [103]⟩]
    unbounded_rowsets := [⟨3, .notSupported⟩]
    all_rowsets := rowsetsSample
    initted := true }

lemma rowsetsSample_wf : ∀ rs ∈ rowsetsSample, ∀ mn mx,
    rs.bounds = .ok mn mx → sliceLe mn mx = true := by
  intro rs hrs mn mx hok
  fin_cases hrs <;>
    first
      | (simp only [BoundsResult.ok.injEq] at hok
         obtain ⟨rfl, rfl⟩ := hok
         decide)
      | exact absurd hok (by simp)

/-- Witness for C5: querying the sample snapshot at key `"b"` and over the
interval `["c","e"]`. -/
theorem c5_query_characterization_witness :
    ((⟨0, .ok [97] [99]⟩ : RowSet) ∈ treeSample.FindRowSetsWithKeyInRange [98] [] ↔
      (⟨0, .ok [97] [99]⟩ : RowSet) ∈ ([] : List RowSet) ∨
        ((⟨0, .ok [97] [99]⟩ : RowSet) ∈ rowsetsSample ∧
          ((⟨0, .ok [97] [99]⟩ : RowSet).bounds = .notSupported ∨
            ∃ mn mx, (⟨0, .ok [97] [99]⟩ : RowSet).bounds = .ok mn mx ∧
              sliceLe mn [98] = true ∧ sliceLe [98] mx = true))) ∧
    ((⟨2, .ok [101] [103]⟩ : RowSet) ∈ treeSample.FindRowSetsIntersectingInterval [99] [101] [] ↔
      (⟨2, .ok [101] [103]⟩ : RowSet) ∈ ([] : List RowSet) ∨
        ((⟨2, .ok [101] [103]⟩ : RowSet) ∈ rowsetsSample ∧
          ((⟨2, .ok [101] [103]⟩ : RowSet).bounds = .notSupported ∨
            ∃ mn mx, (⟨2, .ok [101] [103]⟩ : RowSet).bounds = .ok mn mx ∧
              ∃ k, sliceLe mn k = true ∧ sliceLe k mx = true ∧
                   sliceLe [99] k = true ∧ sliceLe k [101] = true))) := by
  have h := c5_query_characterization rowsetsSample treeSample rfl
    rowsetsSample_wf [99] [101] (by decide)
  exact ⟨h.1 [] [98] ⟨0, .ok [97] [99]⟩, h.2 [] ⟨2, .ok [101] [103]⟩⟩

end Kudu
